import Mathlib

/-!
# Verification of the go-kit-typed examples' endpoint/middleware core

Shallow embedding of the endpoint, middleware, rate-limiter, circuit-breaker,
retry/balancer and transport-binder code of the repository
(addsvc `addtransport`/`addendpoint`, `profilesvc`, `shipping/routing`, and
the stringsvc examples), together with theorems settling the frozen claims.

Go `error` values are modelled by `Option GoErr` (with `none` playing the
role of Go's `nil` error), Go slices by `GoSlice` (which distinguishes a nil
slice from an empty non-nil slice), and `context.Context` by an opaque
`Context` type.  Library code that the examples call but that is not part of
the repository (go-kit's `ratelimit`, `circuitbreaker`, `sd/lb`, and the
go-kit-typed wrappers) is modelled from the specification; each such
definition carries a doc comment saying so.
-/

/-- Go error values relevant to the examples.  `none : Option GoErr` models
Go's `nil` error. -/
inductive GoErr where
  | errNotFound
  | errAlreadyExists
  | errInconsistentIDs
  | errEmpty
  | rateLimitExceeded
  | breakerOpen
  | noEndpoints
  | jsonrpcError (code : Int) (msg : String)
  | transportErr (msg : String)
  | otherErr (msg : String)
deriving DecidableEq, Repr

/-- Opaque stand-in for Go's `context.Context` (the examples only thread it
through, never inspect it). -/
structure Context where
deriving DecidableEq, Repr

/-- `tendpoint.Endpoint[Req, Resp]`: a Go endpoint
`func(ctx context.Context, request Req) (Resp, error)`. -/
def Endpoint (Req Resp : Type) : Type :=
  Context → Req → Resp × Option GoErr

/-- `tendpoint.Middleware[Req, Resp]`: an endpoint-to-endpoint transformer. -/
def Middleware (Req Resp : Type) : Type :=
  Endpoint Req Resp → Endpoint Req Resp

/-- Modelled from the spec: `tmiddleware.Wrapper(m, e)` of the go-kit-typed
library (not under src/) applies middleware `m` to endpoint `e`; "a
transformation that wraps an Endpoint with another Endpoint of the same
type". -/
def Wrapper {Req Resp : Type} (m : Middleware Req Resp) (e : Endpoint Req Resp) :
    Endpoint Req Resp :=
  m e

/-- Modelled from the spec: `tendpoint.MiddlewareWrapper(m, e)` of the
go-kit-typed library (not under src/), the same operation as
`tmiddleware.Wrapper`. -/
def MiddlewareWrapper {Req Resp : Type} (m : Middleware Req Resp)
    (e : Endpoint Req Resp) : Endpoint Req Resp :=
  m e

/-- Composition of middlewares (wrapping by `m₁ ∘ m₂` is wrapping by `m₂`
then by `m₁`). -/
def middlewareComp {Req Resp : Type} (m₁ m₂ : Middleware Req Resp) :
    Middleware Req Resp :=
  fun e => m₁ (m₂ e)

/-! ## addsvc: service, endpoints (src/addsvc/pkg/addtransport/jsonrpc.go,
package addendpoint part) -/

/-- `addservice.Service`: the business service behind the addsvc example.
Each method returns a value and a (business) error. -/
structure AddService where
  sum : Context → Int → Int → Int × Option GoErr
  concat : Context → String → String → String × Option GoErr

/-- `addendpoint.SumRequest`. -/
structure SumRequest where
  A : Int
  B : Int
deriving DecidableEq, Repr

/-- `addendpoint.SumResponse`; `Err` carries the business error. -/
structure SumResponse where
  V : Int
  Err : Option GoErr
deriving DecidableEq, Repr

/-- `SumResponse.Failed`: implements `endpoint.Failer`. -/
def SumResponse.Failed (r : SumResponse) : Option GoErr := r.Err

/-- `addendpoint.ConcatRequest`. -/
structure ConcatRequest where
  A : String
  B : String
deriving DecidableEq, Repr

/-- `addendpoint.ConcatResponse`. -/
structure ConcatResponse where
  V : String
  Err : Option GoErr
deriving DecidableEq, Repr

/-- `ConcatResponse.Failed`: implements `endpoint.Failer`. -/
def ConcatResponse.Failed (r : ConcatResponse) : Option GoErr := r.Err

/-- `addendpoint.MakeSumEndpoint`: wraps `s.Sum`; the business error goes
into the response's `Err` field and the endpoint-layer error is nil. -/
def MakeSumEndpoint (s : AddService) : Endpoint SumRequest SumResponse :=
  fun ctx req =>
    let ve := s.sum ctx req.A req.B
    (⟨ve.1, ve.2⟩, none)

/-- `addendpoint.MakeConcatEndpoint`. -/
def MakeConcatEndpoint (s : AddService) : Endpoint ConcatRequest ConcatResponse :=
  fun ctx req =>
    let ve := s.concat ctx req.A req.B
    (⟨ve.1, ve.2⟩, none)

/-! ## profilesvc data model and endpoints (src/profilesvc/endpoints.go) -/

/-- `profilesvc.Address`. -/
structure Address where
  id : String
  location : String
deriving DecidableEq, Repr

/-- `profilesvc.Profile`. -/
structure Profile where
  id : String
  name : String
  addresses : List Address
deriving DecidableEq, Repr

/-- The subset of `profilesvc.Service` the claims exercise. -/
structure ProfileService where
  getProfile : Context → String → Profile × Option GoErr
  putProfile : Context → String → Profile → Option GoErr

/-- `profilesvc.getProfileRequest`. -/
structure getProfileRequest where
  ID : String
deriving DecidableEq, Repr

/-- `profilesvc.getProfileResponse`. -/
structure getProfileResponse where
  Profile : Profile
  Err : Option GoErr
deriving DecidableEq, Repr

/-- `profilesvc.putProfileRequest`. -/
structure putProfileRequest where
  ID : String
  Profile : Profile
deriving DecidableEq, Repr

/-- `profilesvc.putProfileResponse`. -/
structure putProfileResponse where
  Err : Option GoErr
deriving DecidableEq, Repr

/-- `profilesvc.MakeGetProfileEndpoint`: wraps `s.GetProfile`; the business
error goes into the response's `Err` field and the endpoint-layer error is
nil. -/
def MakeGetProfileEndpoint (s : ProfileService) :
    Endpoint getProfileRequest getProfileResponse :=
  fun ctx req =>
    let pe := s.getProfile ctx req.ID
    (⟨pe.1, pe.2⟩, none)

/-- `profilesvc.MakePutProfileEndpoint`. -/
def MakePutProfileEndpoint (s : ProfileService) :
    Endpoint putProfileRequest putProfileResponse :=
  fun ctx req =>
    let e := s.putProfile ctx req.ID req.Profile
    (⟨e⟩, none)

/-! ## Circuit breaker (spec-modelled)

The examples call `circuitbreaker.Gobreaker`/`circuitbreaker.Hystrix` from
go-kit, whose implementation is not under src/.  The state machine below is
modelled from the spec. -/

/-- Circuit-breaker states: Closed, Open, HalfOpen. -/
inductive BreakerState where
  | closed
  | opened
  | halfOpen
deriving DecidableEq, Repr

/-- Modelled from the spec: the per-operation circuit-breaker state of
go-kit's `circuitbreaker` middleware (not under src/): a
consecutive-failure counter, the current state, the time of the last
transition to Open, and the configured threshold and open-timeout. -/
structure Breaker where
  st : BreakerState
  consecutiveFailures : Nat
  openedAt : Nat
  threshold : Nat
  timeout : Nat
deriving DecidableEq, Repr

/-- Result of one call through the breaker middleware: the response (absent
when the call was short-circuited), the endpoint-layer error, whether the
wrapped endpoint was invoked, and the breaker state after the call. -/
structure BreakerCallResult (Resp : Type) where
  resp : Option Resp
  err : Option GoErr
  innerInvoked : Bool
  next : Breaker
deriving DecidableEq, Repr

/-- Modelled from the spec: one call through the circuit-breaker middleware
(go-kit `circuitbreaker`, not under src/) at time `now`.  Closed: the call
passes through and transport-domain failures are counted, the threshold-th
consecutive failure opening the breaker; Open before the timeout: fail
immediately with BreakerOpen without invoking the wrapped endpoint; Open
after the timeout, or HalfOpen: a single probe is let through, success
closing the breaker and resetting counters, failure reopening it and
restarting the timeout. -/
def breakerCall {Resp : Type} (b : Breaker) (now : Nat)
    (inner : Unit → Resp × Option GoErr) : BreakerCallResult Resp :=
  let probe : Unit → BreakerCallResult Resp := fun _ =>
    let re := inner ()
    if re.2.isSome then
      ⟨some re.1, re.2, true,
        { b with st := .opened, openedAt := now,
                 consecutiveFailures := b.consecutiveFailures + 1 }⟩
    else
      ⟨some re.1, re.2, true,
        { b with st := .closed, consecutiveFailures := 0 }⟩
  match b.st with
  | .closed =>
      let re := inner ()
      if re.2.isSome then
        let f := b.consecutiveFailures + 1
        if b.threshold ≤ f then
          ⟨some re.1, re.2, true,
            { b with st := .opened, openedAt := now, consecutiveFailures := f }⟩
        else
          ⟨some re.1, re.2, true, { b with consecutiveFailures := f }⟩
      else
        ⟨some re.1, re.2, true, { b with consecutiveFailures := 0 }⟩
  | .opened =>
      if b.openedAt + b.timeout ≤ now then
        probe ()
      else
        ⟨none, some .breakerOpen, false, b⟩
  | .halfOpen => probe ()

/-- The breaker middleware applied to an endpoint: one call at time `now`. -/
def breakerWrap {Req Resp : Type} (b : Breaker) (now : Nat)
    (e : Endpoint Req Resp) (ctx : Context) (req : Req) :
    BreakerCallResult Resp :=
  breakerCall b now (fun _ => e ctx req)

/-! ## Rate limiter (spec-modelled)

The examples call `ratelimit.NewErroringLimiter` over a
`golang.org/x/time/rate` token bucket; neither is under src/. -/

/-- Modelled from the spec: the token-bucket state of the rate limiter
(`golang.org/x/time/rate`, not under src/): current token count and
capacity.  The token count is always in `[0, capacity]`. -/
structure TokenBucket where
  tokens : Nat
  capacity : Nat
deriving DecidableEq, Repr

/-- Result of one call through the erroring rate-limiter middleware. -/
structure LimiterCallResult (Resp : Type) where
  resp : Option Resp
  err : Option GoErr
  innerInvoked : Bool
  next : TokenBucket
deriving DecidableEq, Repr

/-- Modelled from the spec: one call through `ratelimit.NewErroringLimiter`
(go-kit, not under src/) with zero effective refill within the observation
window: attempt to withdraw one token; if none is available, fail
immediately with RateLimitExceeded without invoking the wrapped
endpoint. -/
def limiterCall {Resp : Type} (tb : TokenBucket)
    (inner : Unit → Resp × Option GoErr) : LimiterCallResult Resp :=
  if 0 < tb.tokens then
    let re := inner ()
    ⟨some re.1, re.2, true, { tb with tokens := tb.tokens - 1 }⟩
  else
    ⟨none, some .rateLimitExceeded, false, tb⟩

/-- Modelled from the spec: lazy continuous refill of the token bucket when
time advances enough to add `k` tokens, capped at capacity. -/
def TokenBucket.refill (tb : TokenBucket) (k : Nat) : TokenBucket :=
  { tb with tokens := min (tb.tokens + k) tb.capacity }

/-- Run `n` successive calls through the erroring limiter (zero refill),
returning the per-call results in order and the final bucket. -/
def limiterRun {Resp : Type} (tb : TokenBucket)
    (inner : Unit → Resp × Option GoErr) :
    Nat → List (LimiterCallResult Resp) × TokenBucket
  | 0 => ([], tb)
  | n + 1 =>
      let r := limiterCall tb inner
      let rest := limiterRun r.next inner n
      (r :: rest.1, rest.2)

/-! ## Retry with balancer (spec-modelled)

The profilesvc client (src/unnamed/part_003) builds
`lb.Retry(retryMax, retryTimeout, lb.NewRoundRobin(endpointer))` with
`retryMax = 3`; go-kit's `sd/lb` package is not under src/. -/

/-- Modelled from the spec: go-kit's `lb.Retry` (not under src/) with a
maximum attempt count.  `att i` is the outcome of the `i`-th attempt (each
attempt makes a fresh endpoint selection from the balancer, which the index
captures).  Returns the final outcome together with the number of attempts
made; on failure of the last permitted attempt only that last error is
returned.  The wall-clock deadline is not modelled (no real time in the
embedding); within the deadline the attempt budget is the binding limit. -/
def retryGo {Resp : Type} (att : Nat → Except GoErr Resp) :
    Nat → Nat → Except GoErr Resp × Nat
  | _, 0 => (.error .noEndpoints, 0)
  | i, 1 => (att i, 1)
  | i, remaining + 1 =>
      match att i with
      | .ok v => (.ok v, 1)
      | .error _ =>
          let rest := retryGo att (i + 1) remaining
          (rest.1, rest.2 + 1)

/-- Modelled from the spec: `lb.Retry(max, timeout, balancer)` as called in
the profilesvc client: run up to `max` attempts, starting from the first
selection. -/
def Retry {Resp : Type} (max : Nat) (att : Nat → Except GoErr Resp) :
    Except GoErr Resp × Nat :=
  retryGo att 0 max

/-! ## Round-robin balancer (spec-modelled)

go-kit's `lb.NewRoundRobin` is not under src/; modelled from the spec:
"maintains a monotonic counter, selects `list[counter mod len(list)]`, and
fails immediately with NoEndpoints if the list is empty". -/

/-- Modelled from the spec: one round-robin selection over the current
endpoint list at counter value `c`: the selected element and the
incremented counter, or NoEndpoints on an empty list. -/
def rrSelect {α : Type} (l : List α) (c : Nat) : Except GoErr (α × Nat) :=
  if h : l.length = 0 then .error .noEndpoints
  else .ok (l.get ⟨c % l.length, Nat.mod_lt c (Nat.pos_of_ne_zero h)⟩, c + 1)

/-- `k` consecutive round-robin selections starting at counter `c` (stopping
early only if a selection fails, which happens only on an empty list). -/
def rrRun {α : Type} (l : List α) (c : Nat) : Nat → List α
  | 0 => []
  | k + 1 =>
      match rrSelect l c with
      | .error _ => []
      | .ok ac => ac.1 :: rrRun l ac.2 k

/-! ## Middleware ordering probes (for the composition and stacking claims)

To observe execution order we instantiate the middleware slots with probe
middlewares over endpoints whose request and response carry an event log:
the probe appends a "before" event on the way in and an "after" event on
the way out, exactly the "adding behavior before/after the call" shape of
the spec's Middleware. -/

/-- Phase of a probe event. -/
inductive Phase where
  | before
  | after
deriving DecidableEq, Repr

/-- A traced endpoint threads the event log through request and response. -/
abbrev TracedEndpoint (L : Type) : Type := Endpoint (List (Phase × L)) (List (Phase × L))

/-- Probe middleware labelled `i`: records `(before, i)` on the way in and
`(after, i)` on the way out, preserving the wrapped endpoint's error. -/
def probeMW {L : Type} (i : L) : Middleware (List (Phase × L)) (List (Phase × L)) :=
  fun next ctx req =>
    let re := next ctx (req ++ [(Phase.before, i)])
    (re.1 ++ [(Phase.after, i)], re.2)

/-- Base traced endpoint: echoes the incoming log, no error. -/
def echoEndpoint {L : Type} : TracedEndpoint L :=
  fun _ req => (req, none)

/-- Apply a list of middlewares to an endpoint by repeated wrapping, exactly
as the source does with successive `e = tmiddleware.Wrapper(m, e)`
statements: the head of the list is applied first (innermost), the last
element is applied last (outermost). -/
def wrapAll {Req Resp : Type} (ms : List (Middleware Req Resp))
    (e : Endpoint Req Resp) : Endpoint Req Resp :=
  ms.foldl (fun acc m => Wrapper m acc) e

/-- The trace that a stack of probes labelled `ids` (applied in that order)
adds around an inner trace `t`. -/
def probeTrace {L : Type} (ids : List L) (t : List (Phase × L)) : List (Phase × L) :=
  ids.foldl (fun t i => (Phase.before, i) :: t ++ [(Phase.after, i)]) t

/-! ## The concrete middleware stacks of addsvc (src/addsvc/pkg/addtransport/jsonrpc.go) -/

/-- The middleware layers named by the addsvc stacks. -/
inductive Layer where
  | tracing
  | zipkin
  | logging
  | instrumentation
  | breaker
  | limiter
  | business
deriving DecidableEq, Repr

/-- `addendpoint.New`, Sum branch: the exact wrapping order of the server
stack, with the middleware slots abstracted (`useZipkin` mirrors the
`zipkinTracer != nil` guard).  Successive `tmiddleware.Wrapper` statements
wrap, so the last line is outermost. -/
def addendpointNewSum {Req Resp : Type}
    (limiter breaker tracer zipkinTE logging instr : Middleware Req Resp)
    (useZipkin : Bool) (base : Endpoint Req Resp) : Endpoint Req Resp :=
  let e := base
  let e := Wrapper limiter e
  let e := Wrapper breaker e
  let e := Wrapper tracer e
  let e := if useZipkin then Wrapper zipkinTE e else e
  let e := Wrapper logging e
  Wrapper instr e

/-- `NewJSONRPCClient`, Sum branch: the exact wrapping order of the client
stack (trace, then limiter, then breaker; the last is outermost). -/
def newJSONRPCClientSum {Req Resp : Type}
    (tracer limiter breaker : Middleware Req Resp)
    (transportEp : Endpoint Req Resp) : Endpoint Req Resp :=
  let e := transportEp
  let e := MiddlewareWrapper tracer e
  let e := MiddlewareWrapper limiter e
  MiddlewareWrapper breaker e

/-- Base business endpoint as a probe: records one `(before, business)`
event when it is actually invoked. -/
def businessProbe : TracedEndpoint Layer :=
  fun _ req => (req ++ [(Phase.before, Layer.business)], none)

/-- The before-phase labels of a trace, in execution order: which layers ran
their on-the-way-in logic, outermost first. -/
def beforeOrder {L : Type} [DecidableEq L] (t : List (Phase × L)) : List L :=
  (t.filter (fun ev => ev.1 == Phase.before)).map (fun ev => ev.2)

/-- The server stack of `addendpoint.New` (no zipkin tracer) with every
slot instantiated by its probe. -/
def serverSumStack : TracedEndpoint Layer :=
  addendpointNewSum (probeMW .limiter) (probeMW .breaker) (probeMW .tracing)
    (probeMW .zipkin) (probeMW .logging) (probeMW .instrumentation)
    false businessProbe

/-- Execution order (outermost first) of the server stack's layers. -/
def serverBeforeOrder : List Layer :=
  beforeOrder ((serverSumStack ⟨⟩ []).1)

/-- The client stack of `NewJSONRPCClient` with every slot instantiated by
its probe (the transport endpoint plays the business-call role). -/
def clientSumStack : TracedEndpoint Layer :=
  newJSONRPCClientSum (probeMW .tracing) (probeMW .limiter) (probeMW .breaker)
    businessProbe

/-- Execution order (outermost first) of the client stack's layers. -/
def clientBeforeOrder : List Layer :=
  beforeOrder ((clientSumStack ⟨⟩ []).1)

/-- An erroring rate-limiter slot that rejects the call: records its
admission check, then fails with RateLimitExceeded without invoking the
wrapped endpoint (the behavior of `ratelimit.NewErroringLimiter` with an
empty bucket). -/
def rejectingLimiterMW : Middleware (List (Phase × Layer)) (List (Phase × Layer)) :=
  fun _next _ctx req => (req ++ [(Phase.before, Layer.limiter)], some .rateLimitExceeded)

/-- The server stack when the rate limiter rejects the call. -/
def serverSumStackThrottled : TracedEndpoint Layer :=
  addendpointNewSum rejectingLimiterMW (probeMW .breaker) (probeMW .tracing)
    (probeMW .zipkin) (probeMW .logging) (probeMW .instrumentation)
    false businessProbe

/-! ## Transport binder decode functions (src/addsvc/.../jsonrpc.go and the
stringsvc example src/unnamed/part_005) -/

/-- `uppercaseRequest` of the stringsvc example. -/
structure uppercaseRequest where
  S : String
deriving DecidableEq, Repr

/-- `decodeSumRequest` (jsonrpc.go): unmarshal the raw message; on failure
return a `jsonrpc.Error` with code -32000 wrapping the unmarshal error
text, and the zero request.  JSON unmarshalling itself (`encoding/json`,
not part of the repository) is abstracted as the parameter `um`. -/
def decodeSumRequest (um : String → Except String SumRequest) (msg : String) :
    Except GoErr SumRequest :=
  match um msg with
  | .error e =>
      .error (.jsonrpcError (-32000) ("couldn't unmarshal body to sum request: " ++ e))
  | .ok req => .ok req

/-- `decodeUppercaseRequest` (stringsvc): decode the request body; on
failure return the decode error unchanged.  JSON decoding is abstracted as
the parameter `um`. -/
def decodeUppercaseRequest (um : String → Except GoErr uppercaseRequest)
    (body : String) : Except GoErr uppercaseRequest :=
  match um body with
  | .error e => .error e
  | .ok r => .ok r

/-- Result of serving one wire request: the response or reported error,
whether the wrapped endpoint was invoked, and the circuit-breaker state
after the request. -/
structure ServeResult (Resp : Type) where
  resp : Option Resp
  err : Option GoErr
  endpointInvoked : Bool
  breaker : Breaker
deriving DecidableEq, Repr

/-- Modelled from the spec: the transport-binder server dispatch
(`jsonrpc.Server` / `thttptransport.NewServerStdEnc`, not under src/)
serving one wire request against a breaker-wrapped endpoint: decode the
wire request, report a decode failure to the caller without ever invoking
the endpoint, otherwise invoke the breaker-wrapped endpoint. -/
def serve {Req Resp : Type} (decode : String → Except GoErr Req)
    (e : Endpoint Req Resp) (b : Breaker) (now : Nat) (ctx : Context)
    (wire : String) : ServeResult Resp :=
  match decode wire with
  | .error err => ⟨none, some err, false, b⟩
  | .ok req =>
      let r := breakerWrap b now e ctx req
      ⟨r.resp, r.err, r.innerInvoked, r.next⟩

/-! ## profilesvc response encoding (src/profilesvc/endpoints.go response
types and src/unnamed/part_004 transport.go) -/

/-- `profilesvc.postProfileResponse`. -/
structure postProfileResponse where
  Err : Option GoErr
deriving DecidableEq, Repr

/-- `profilesvc.patchProfileResponse`. -/
structure patchProfileResponse where
  Err : Option GoErr
deriving DecidableEq, Repr

/-- `profilesvc.deleteProfileResponse`. -/
structure deleteProfileResponse where
  Err : Option GoErr
deriving DecidableEq, Repr

/-- `profilesvc.getAddressesResponse`. -/
structure getAddressesResponse where
  Addresses : List Address
  Err : Option GoErr
deriving DecidableEq, Repr

/-- `profilesvc.getAddressResponse`. -/
structure getAddressResponse where
  Address : Address
  Err : Option GoErr
deriving DecidableEq, Repr

/-- `profilesvc.postAddressResponse`. -/
structure postAddressResponse where
  Err : Option GoErr
deriving DecidableEq, Repr

/-- `profilesvc.deleteAddressResponse`. -/
structure deleteAddressResponse where
  Err : Option GoErr
deriving DecidableEq, Repr

/-- `func (r postProfileResponse) error() error { return r.Err }`. -/
def postProfileResponse.error (r : postProfileResponse) : Option GoErr := r.Err

/-- `func (r getProfileResponse) error() error { return r.Err }`. -/
def getProfileResponse.error (r : getProfileResponse) : Option GoErr := r.Err

/-- `func (r putProfileResponse) error() error { return nil }` — the source
ignores `r.Err` and returns nil unconditionally. -/
def putProfileResponse.error (_ : putProfileResponse) : Option GoErr := none

/-- `func (r patchProfileResponse) error() error { return r.Err }`. -/
def patchProfileResponse.error (r : patchProfileResponse) : Option GoErr := r.Err

/-- `func (r deleteProfileResponse) error() error { return r.Err }`. -/
def deleteProfileResponse.error (r : deleteProfileResponse) : Option GoErr := r.Err

/-- `func (r getAddressesResponse) error() error { return r.Err }`. -/
def getAddressesResponse.error (r : getAddressesResponse) : Option GoErr := r.Err

/-- `func (r getAddressResponse) error() error { return r.Err }`. -/
def getAddressResponse.error (r : getAddressResponse) : Option GoErr := r.Err

/-- `func (r postAddressResponse) error() error { return r.Err }`. -/
def postAddressResponse.error (r : postAddressResponse) : Option GoErr := r.Err

/-- `func (r deleteAddressResponse) error() error { return r.Err }`. -/
def deleteAddressResponse.error (r : deleteAddressResponse) : Option GoErr := r.Err

/-- The `interface{}` value handed to `encodeResponse`: one of the concrete
profilesvc response types. -/
inductive ProfilesvcResponse where
  | postProfile (r : postProfileResponse)
  | getProfile (r : getProfileResponse)
  | putProfile (r : putProfileResponse)
  | patchProfile (r : patchProfileResponse)
  | deleteProfile (r : deleteProfileResponse)
  | getAddresses (r : getAddressesResponse)
  | getAddress (r : getAddressResponse)
  | postAddress (r : postAddressResponse)
  | deleteAddress (r : deleteAddressResponse)
deriving DecidableEq, Repr

/-- The `errorer` interface dispatch: every profilesvc response type
implements `error()`, so the type assertion in `encodeResponse` always
succeeds and this returns the result of the concrete `error()` method. -/
def errorerOf : ProfilesvcResponse → Option GoErr
  | .postProfile r => r.error
  | .getProfile r => r.error
  | .putProfile r => r.error
  | .patchProfile r => r.error
  | .deleteProfile r => r.error
  | .getAddresses r => r.error
  | .getAddress r => r.error
  | .postAddress r => r.error
  | .deleteAddress r => r.error

/-- `codeFrom` (transport.go): map a business error to an HTTP status. -/
def codeFrom (e : GoErr) : Nat :=
  match e with
  | .errNotFound => 404
  | .errAlreadyExists => 400
  | .errInconsistentIDs => 400
  | _ => 500

/-- What `encodeResponse` writes to the wire: a JSON-encoded success body,
or (via `encodeError`) an error body with the status from `codeFrom`. -/
inductive HttpReply where
  | okJson (body : ProfilesvcResponse)
  | errJson (status : Nat) (e : GoErr)
deriving DecidableEq, Repr

/-- `encodeResponse` (transport.go): if the response implements `errorer`
and its `error()` is non-nil, route it through `encodeError` (business
error as HTTP error with `codeFrom` status); otherwise encode the response
as a plain 200 JSON body. -/
def encodeResponse (resp : ProfilesvcResponse) : HttpReply :=
  match errorerOf resp with
  | some e => .errJson (codeFrom e) e
  | none => .okJson resp

/-! ## shipping/routing proxying middleware (src/shipping/routing/proxying.go) -/

/-- A Go slice: distinguishes the nil slice from a non-nil (possibly empty)
slice; `append` always yields a non-nil slice. -/
structure GoSlice (α : Type) where
  nonNil : Bool
  toList : List α
deriving DecidableEq, Repr

/-- The nil (zero-value) slice, `var s []T`. -/
def GoSlice.nil {α : Type} : GoSlice α := ⟨false, []⟩

/-- The empty slice literal `[]T{}` — empty but non-nil. -/
def GoSlice.emptyLit {α : Type} : GoSlice α := ⟨true, []⟩

/-- Go `append(s, a)`. -/
def GoSlice.push {α : Type} (s : GoSlice α) (a : α) : GoSlice α :=
  ⟨true, s.toList ++ [a]⟩

/-- An edge of a route path in `fetchRoutesResponse`. -/
structure Edge where
  Origin : String
  Destination : String
  Voyage : String
  Departure : Nat
  Arrival : Nat
deriving DecidableEq, Repr

/-- One path of `fetchRoutesResponse.Paths`. -/
structure RoutePath where
  Edges : List Edge
deriving DecidableEq, Repr

/-- `routing.fetchRoutesRequest`. -/
structure fetchRoutesRequest where
  From : String
  To : String
deriving DecidableEq, Repr

/-- `routing.fetchRoutesResponse`. -/
structure fetchRoutesResponse where
  Paths : List RoutePath
deriving DecidableEq, Repr

/-- `cargo.Leg`. -/
structure Leg where
  VoyageNumber : String
  LoadLocation : String
  UnloadLocation : String
  LoadTime : Nat
  UnloadTime : Nat
deriving DecidableEq, Repr

/-- `cargo.Itinerary`. -/
structure Itinerary where
  Legs : GoSlice Leg
deriving DecidableEq, Repr

/-- `cargo.RouteSpecification` (the fields the proxy reads). -/
structure RouteSpecification where
  Origin : String
  Destination : String
deriving DecidableEq, Repr

/-- `proxyService.FetchRoutesForSpecification`: call the (breaker-wrapped)
fetch-routes endpoint; on any endpoint-layer error return the empty slice
literal `[]cargo.Itinerary{}`; otherwise translate each path into an
itinerary (legs built by `append` from a nil slice, itineraries likewise). -/
def FetchRoutesForSpecification
    (ep : Endpoint fetchRoutesRequest fetchRoutesResponse)
    (ctx : Context) (rs : RouteSpecification) : GoSlice Itinerary :=
  let re := ep ctx ⟨rs.Origin, rs.Destination⟩
  match re.2 with
  | some _ => GoSlice.emptyLit
  | none =>
      re.1.Paths.foldl
        (fun acc r =>
          acc.push
            ⟨r.Edges.foldl
              (fun legs e =>
                legs.push ⟨e.Voyage, e.Origin, e.Destination, e.Departure, e.Arrival⟩)
              GoSlice.nil⟩)
        GoSlice.nil

/-- C1: every `Make*Endpoint` constructor embeds a business-logic failure in the
response's `Err` field and returns a nil endpoint-layer error, so a wrapping
circuit breaker observes such a call as a success; only a non-nil
endpoint-layer error counts as a breaker failure. -/
theorem make_endpoints_embed_business_error
    (s : AddService) (ps : ProfileService) (ctx : Context)
    (req : SumRequest) (greq : getProfileRequest) (b : Breaker) (now : Nat)
    (e : Endpoint SumRequest SumResponse) (hb : b.st = .closed) :
    (MakeSumEndpoint s ctx req).2 = none ∧
    (MakeSumEndpoint s ctx req).1.Err = (s.sum ctx req.A req.B).2 ∧
    (MakeGetProfileEndpoint ps ctx greq).2 = none ∧
    (MakeGetProfileEndpoint ps ctx greq).1.Err = (ps.getProfile ctx greq.ID).2 ∧
    (breakerWrap b now (MakeSumEndpoint s) ctx req).next =
      { b with consecutiveFailures := 0 } ∧
    (breakerWrap b now (MakeSumEndpoint s) ctx req).err = none ∧
    (breakerWrap b now e ctx req).next.consecutiveFailures =
      (if (e ctx req).2.isSome then b.consecutiveFailures + 1 else 0) := by
  refine ⟨rfl, rfl, rfl, rfl, ?_, ?_, ?_⟩
  · simp [breakerWrap, breakerCall, hb, MakeSumEndpoint]
  · simp [breakerWrap, breakerCall, hb, MakeSumEndpoint]
  · cases her : (e ctx req).2 <;> simp [breakerWrap, breakerCall, hb, her]
    split <;> rfl

/-- Instantiation of `make_endpoints_embed_business_error` at a service whose
Sum fails with a business error and a breaker in the Closed state. -/
theorem make_endpoints_embed_business_error_witness :
    (Breaker.mk .closed 0 0 5 30).st = .closed ∧
    ((MakeSumEndpoint ⟨fun _ a b => (a + b, some .errEmpty),
        fun _ a b => (a ++ b, none)⟩ ⟨⟩ ⟨1, 2⟩).2 = none ∧
     (MakeSumEndpoint ⟨fun _ a b => (a + b, some .errEmpty),
        fun _ a b => (a ++ b, none)⟩ ⟨⟩ ⟨1, 2⟩).1.Err =
       ((⟨fun _ a b => (a + b, some .errEmpty),
          fun _ a b => (a ++ b, none)⟩ : AddService).sum ⟨⟩ 1 2).2 ∧
     (MakeGetProfileEndpoint ⟨fun _ _ => (⟨"i", "n", []⟩, some .errNotFound),
        fun _ _ _ => none⟩ ⟨⟩ ⟨"p"⟩).2 = none ∧
     (MakeGetProfileEndpoint ⟨fun _ _ => (⟨"i", "n", []⟩, some .errNotFound),
        fun _ _ _ => none⟩ ⟨⟩ ⟨"p"⟩).1.Err =
       ((⟨fun _ _ => (⟨"i", "n", []⟩, some .errNotFound),
          fun _ _ _ => none⟩ : ProfileService).getProfile ⟨⟩ "p").2 ∧
     (breakerWrap (Breaker.mk .closed 0 0 5 30) 7
        (MakeSumEndpoint ⟨fun _ a b => (a + b, some .errEmpty),
          fun _ a b => (a ++ b, none)⟩) ⟨⟩ ⟨1, 2⟩).next =
       { Breaker.mk .closed 0 0 5 30 with consecutiveFailures := 0 } ∧
     (breakerWrap (Breaker.mk .closed 0 0 5 30) 7
        (MakeSumEndpoint ⟨fun _ a b => (a + b, some .errEmpty),
          fun _ a b => (a ++ b, none)⟩) ⟨⟩ ⟨1, 2⟩).err = none ∧
     (breakerWrap (Breaker.mk .closed 0 0 5 30) 7
        (fun (_ : Context) (_ : SumRequest) =>
          (SumResponse.mk 0 none, some (GoErr.transportErr "boom"))) ⟨⟩
        ⟨1, 2⟩).next.consecutiveFailures =
       (if ((fun (_ : Context) (_ : SumRequest) =>
              (SumResponse.mk 0 none, some (GoErr.transportErr "boom"))) ⟨⟩
              ⟨1, 2⟩).2.isSome
        then (Breaker.mk .closed 0 0 5 30).consecutiveFailures + 1 else 0)) :=
  ⟨rfl, make_endpoints_embed_business_error _ _ _ _ _ _ 7 _ rfl⟩

/-- C3 fails on the code: the execution order (outermost first) of the
server stack built by `addendpoint.New` is not
tracing → logging → instrumentation → breaker → limiter → business. -/
theorem addsvc_stack_order_counterexample :
    serverBeforeOrder ≠
      [Layer.tracing, Layer.logging, Layer.instrumentation, Layer.breaker,
       Layer.limiter, Layer.business] := by
  decide

/-- C3 amended: in `addendpoint.New` the order (outermost to innermost) is
instrumentation → logging → tracing → circuit-breaker → rate-limiter →
business endpoint, and in `NewJSONRPCClient` it is circuit-breaker →
rate-limiter → tracing → transport endpoint.  On the server every call is
measured, logged and traced even when the rate limiter rejects it, but the
circuit breaker wraps the rate limiter, so the breaker observes also calls
the limiter rejected (their RateLimitExceeded error passes through it); the
business endpoint is not invoked on such calls. -/
theorem addsvc_stack_order :
    serverBeforeOrder =
      [Layer.instrumentation, Layer.logging, Layer.tracing, Layer.breaker,
       Layer.limiter, Layer.business] ∧
    clientBeforeOrder =
      [Layer.breaker, Layer.limiter, Layer.tracing, Layer.business] ∧
    (serverSumStackThrottled ⟨⟩ []).2 = some .rateLimitExceeded ∧
    beforeOrder ((serverSumStackThrottled ⟨⟩ []).1) =
      [Layer.instrumentation, Layer.logging, Layer.tracing, Layer.breaker,
       Layer.limiter] ∧
    (Phase.before, Layer.business) ∉ (serverSumStackThrottled ⟨⟩ []).1 ∧
    (Phase.after, Layer.breaker) ∈ (serverSumStackThrottled ⟨⟩ []).1 := by
  refine ⟨rfl, rfl, rfl, rfl, by decide, by decide⟩

/-- C9: `putProfileResponse.error()` returns nil unconditionally, ignoring
the `Err` field, so `encodeResponse` always encodes a PutProfile response
as a success and never routes it through `encodeError`; every other
profilesvc response type's `error()` returns its `Err` field, and e.g. a
GetProfile response with a not-found business error is routed through
`encodeError` with status 404. -/
theorem putProfileResponse_error_always_nil
    (e : Option GoErr) (p : Profile) (a : Address) (al : List Address) :
    putProfileResponse.error ⟨e⟩ = none ∧
    encodeResponse (.putProfile ⟨e⟩) = .okJson (.putProfile ⟨e⟩) ∧
    postProfileResponse.error ⟨e⟩ = e ∧
    getProfileResponse.error ⟨p, e⟩ = e ∧
    patchProfileResponse.error ⟨e⟩ = e ∧
    deleteProfileResponse.error ⟨e⟩ = e ∧
    getAddressesResponse.error ⟨al, e⟩ = e ∧
    getAddressResponse.error ⟨a, e⟩ = e ∧
    postAddressResponse.error ⟨e⟩ = e ∧
    deleteAddressResponse.error ⟨e⟩ = e ∧
    (∀ g : GoErr, encodeResponse (.getProfile ⟨p, some g⟩) = .errJson (codeFrom g) g) ∧
    encodeResponse (.putProfile ⟨some .errNotFound⟩) =
      .okJson (.putProfile ⟨some .errNotFound⟩) := by
  refine ⟨rfl, rfl, rfl, rfl, rfl, rfl, rfl, rfl, rfl, rfl, fun g => rfl, rfl⟩

/-- C10: `proxyService.FetchRoutesForSpecification` never propagates an
endpoint-layer error: whenever the wrapped fetch-routes endpoint fails
(e.g. a circuit-breaker rejection) it returns the empty non-nil slice
`[]cargo.Itinerary{}`, whose contents are identical to those of a
successful response containing no routes. -/
theorem fetchRoutes_swallows_errors
    (ep : Endpoint fetchRoutesRequest fetchRoutesResponse)
    (ctx : Context) (rs : RouteSpecification)
    (h : (ep ctx ⟨rs.Origin, rs.Destination⟩).2.isSome) :
    FetchRoutesForSpecification ep ctx rs = GoSlice.emptyLit ∧
    (FetchRoutesForSpecification ep ctx rs).nonNil = true ∧
    (FetchRoutesForSpecification ep ctx rs).toList = [] ∧
    (∀ epOk : Endpoint fetchRoutesRequest fetchRoutesResponse,
      (epOk ctx ⟨rs.Origin, rs.Destination⟩) = (⟨[]⟩, none) →
      (FetchRoutesForSpecification ep ctx rs).toList =
        (FetchRoutesForSpecification epOk ctx rs).toList) := by
  rcases her : (ep ctx ⟨rs.Origin, rs.Destination⟩).2 with _ | err
  · rw [her] at h; simp at h
  · refine ⟨?_, ?_, ?_, ?_⟩ <;>
      simp [FetchRoutesForSpecification, her, GoSlice.emptyLit]
    intro epOk hok
    simp [hok, GoSlice.nil]

/-- Instantiation of `fetchRoutes_swallows_errors` at an endpoint failing
with a breaker-open error. -/
theorem fetchRoutes_swallows_errors_witness :
    ((fun (_ : Context) (_ : fetchRoutesRequest) =>
        ((⟨[]⟩ : fetchRoutesResponse), some GoErr.breakerOpen)) ⟨⟩
      (⟨"SESTO", "CNHKG"⟩ : fetchRoutesRequest)).2.isSome ∧
    FetchRoutesForSpecification
      (fun (_ : Context) (_ : fetchRoutesRequest) =>
        ((⟨[]⟩ : fetchRoutesResponse), some GoErr.breakerOpen)) ⟨⟩
      ⟨"SESTO", "CNHKG"⟩ = GoSlice.emptyLit :=
  ⟨rfl,
   (fetchRoutes_swallows_errors
      (fun _ _ => ((⟨[]⟩ : fetchRoutesResponse), some GoErr.breakerOpen)) ⟨⟩
      ⟨"SESTO", "CNHKG"⟩ rfl).1⟩

/-- A probe stack wrapped (in order) around an endpoint that appends the
fixed trace `t` appends `probeTrace ids t`. -/
theorem wrapAll_probe_apply {L : Type} (ids : List L) (e : TracedEndpoint L)
    (t : List (Phase × L))
    (he : ∀ ctx log, e ctx log = (log ++ t, none)) :
    ∀ ctx log, (wrapAll (ids.map probeMW) e) ctx log =
      (log ++ probeTrace ids t, none) := by
  induction ids generalizing e t with
  | nil =>
      intro ctx log
      simpa [wrapAll, probeTrace] using he ctx log
  | cons i ids ih =>
      intro ctx log
      have h2 : ∀ ctx log, (Wrapper (probeMW i) e) ctx log =
          (log ++ ((Phase.before, i) :: t ++ [(Phase.after, i)]), none) := by
        intro ctx log
        simp [Wrapper, probeMW, he, List.append_assoc]
      have h3 := ih (Wrapper (probeMW i) e) _ h2 ctx log
      simpa [wrapAll, probeTrace] using h3

/-- The trace added by a probe stack: the "before" events of the labels in
reverse application order, then the inner trace, then the "after" events in
application order. -/
theorem probeTrace_eq {L : Type} (ids : List L) (t : List (Phase × L)) :
    probeTrace ids t =
      ids.reverse.map (fun i => (Phase.before, i)) ++ t ++
        ids.map (fun i => (Phase.after, i)) := by
  induction ids generalizing t with
  | nil => simp [probeTrace]
  | cons i ids ih =>
      show probeTrace ids ((Phase.before, i) :: t ++ [(Phase.after, i)]) = _
      rw [ih]
      simp [List.append_assoc]

/-- C2: applying N middlewares by repeated wrapping makes the last-applied
middleware outermost (`wrapAll (ms ++ [m]) e = Wrapper m (wrapAll ms e)`);
on a call the "before" logic of probe middlewares runs in reverse order of
application (outermost first) and their "after" logic in application order
(innermost first); middleware composition is associative, and wrapping with
a composition is wrapping twice. -/
theorem middleware_order_and_assoc {L Req Resp : Type}
    (ids : List L) (ctx : Context)
    (m₁ m₂ m₃ : Middleware Req Resp) (e : Endpoint Req Resp)
    (ms : List (Middleware Req Resp)) (m : Middleware Req Resp) :
    ((wrapAll (ids.map probeMW) echoEndpoint) ctx []).1 =
      ids.reverse.map (fun i => (Phase.before, i)) ++
        ids.map (fun i => (Phase.after, i)) ∧
    wrapAll (ms ++ [m]) e = Wrapper m (wrapAll ms e) ∧
    middlewareComp (middlewareComp m₁ m₂) m₃ =
      middlewareComp m₁ (middlewareComp m₂ m₃) ∧
    Wrapper (middlewareComp m₁ m₂) e = Wrapper m₁ (Wrapper m₂ e) ∧
    MiddlewareWrapper m₁ e = Wrapper m₁ e := by
  refine ⟨?_, ?_, rfl, rfl, rfl⟩
  · have h := wrapAll_probe_apply ids echoEndpoint []
      (fun _ log => by simp [echoEndpoint]) ctx []
    rw [h]
    simp [probeTrace_eq]
  · simp [wrapAll, List.foldl_append, Wrapper]

/-- C5: while the breaker is Open and the open-timeout has not elapsed,
every call returns BreakerOpen and the wrapped endpoint is not invoked and
the state is unchanged; once the timeout has elapsed (or in HalfOpen) a
single probe is let through, whose outcome determines the next state:
success closes the breaker and resets the failure counter, failure reopens
it with the timeout restarted from `now`. -/
theorem breaker_open_semantics {Resp : Type} (b : Breaker) (now : Nat)
    (inner : Unit → Resp × Option GoErr) :
    (b.st = .opened → now < b.openedAt + b.timeout →
      breakerCall b now inner = ⟨none, some .breakerOpen, false, b⟩) ∧
    (b.st = .opened → b.openedAt + b.timeout ≤ now →
      (breakerCall b now inner).innerInvoked = true ∧
      ((inner ()).2 = none →
        (breakerCall b now inner).next =
          { b with st := .closed, consecutiveFailures := 0 }) ∧
      (∀ g, (inner ()).2 = some g →
        (breakerCall b now inner).next =
          { b with st := .opened, openedAt := now,
                   consecutiveFailures := b.consecutiveFailures + 1 }) ∧
      (breakerCall b now inner).next.st ≠ .halfOpen) ∧
    (b.st = .halfOpen →
      (breakerCall b now inner).innerInvoked = true ∧
      ((inner ()).2 = none →
        (breakerCall b now inner).next =
          { b with st := .closed, consecutiveFailures := 0 }) ∧
      (∀ g, (inner ()).2 = some g →
        (breakerCall b now inner).next =
          { b with st := .opened, openedAt := now,
                   consecutiveFailures := b.consecutiveFailures + 1 })) := by
  refine ⟨?_, ?_, ?_⟩
  · intro hst ht
    simp [breakerCall, hst, Nat.not_le.2 ht]
  · intro hst ht
    refine ⟨?_, ?_, ?_, ?_⟩ <;>
      cases hi : (inner ()).2 <;>
        simp [breakerCall, hst, ht, hi]
  · intro hst
    refine ⟨?_, ?_, ?_⟩ <;>
      cases hi : (inner ()).2 <;>
        simp [breakerCall, hst, hi]

/-- Instantiation of `breaker_open_semantics`: an Open breaker (opened at 0,
timeout 30) rejects a call at time 10 without invoking the endpoint. -/
theorem breaker_open_semantics_witness :
    (Breaker.mk .opened 2 0 5 30).st = .opened ∧ (10 : Nat) < 0 + 30 ∧
    breakerCall (Breaker.mk .opened 2 0 5 30) 10
        (fun _ => ((42 : Nat), none)) =
      ⟨none, some .breakerOpen, false, Breaker.mk .opened 2 0 5 30⟩ :=
  ⟨rfl, by decide,
   (breaker_open_semantics (Breaker.mk .opened 2 0 5 30) 10
      (fun _ => ((42 : Nat), none))).1 rfl (by decide)⟩

/-- Closed form of a zero-refill limiter run starting from `t` tokens: the
`i`-th call is admitted exactly when `i < t`, and every later call is
rejected with RateLimitExceeded without invoking the wrapped endpoint. -/
theorem limiterRun_spec {Resp : Type} (inner : Unit → Resp × Option GoErr)
    (C : Nat) :
    ∀ (n t : Nat),
      (limiterRun ⟨t, C⟩ inner n).1 =
        (List.range n).map (fun i =>
          if i < t then
            ⟨some (inner ()).1, (inner ()).2, true, ⟨t - (i + 1), C⟩⟩
          else ⟨none, some .rateLimitExceeded, false, ⟨t - (i + 1), C⟩⟩) := by
  intro n
  induction n with
  | zero => intro t; simp [limiterRun]
  | succ n ih =>
      intro t
      rw [List.range_succ_eq_map, List.map_cons, List.map_map]
      by_cases ht : 0 < t
      · have hhead : limiterCall (⟨t, C⟩ : TokenBucket) inner =
            ⟨some (inner ()).1, (inner ()).2, true, ⟨t - 1, C⟩⟩ := by
          simp [limiterCall, ht]
        show (limiterCall (⟨t, C⟩ : TokenBucket) inner ::
            (limiterRun (limiterCall (⟨t, C⟩ : TokenBucket) inner).next inner n).1) = _
        rw [hhead]
        simp only [ht, if_pos]
        refine congrArg _ ?_
        rw [ih (t - 1)]
        refine List.map_congr_left ?_
        intro i _
        have h1 : (i < t - 1) = (i + 1 < t) := by
          apply propext; omega
        have h2 : t - 1 - (i + 1) = t - (i + 1 + 1) := by omega
        simp [Function.comp, h1, h2]
      · have ht0 : t = 0 := by omega
        subst ht0
        have hhead : limiterCall (⟨0, C⟩ : TokenBucket) inner =
            ⟨none, some .rateLimitExceeded, false, ⟨0, C⟩⟩ := by
          simp [limiterCall]
        show (limiterCall (⟨0, C⟩ : TokenBucket) inner ::
            (limiterRun (limiterCall (⟨0, C⟩ : TokenBucket) inner).next inner n).1) = _
        rw [hhead]
        simp only [Nat.not_lt_zero, if_neg, Nat.zero_sub]
        refine congrArg _ ?_
        rw [ih 0]
        refine List.map_congr_left ?_
        intro i _
        simp [Function.comp]

/-- C4: the erroring rate limiter over a token bucket with capacity `C` and
zero refill within the window admits the first `C` calls (passing them to
the wrapped endpoint) and rejects every later call immediately with
RateLimitExceeded without invoking the wrapped endpoint; once at least one
token is refilled a call is admitted again. -/
theorem erroring_limiter_admits_capacity {Resp : Type}
    (inner : Unit → Resp × Option GoErr) (C n i k : Nat) (hi : i < n)
    (hk : 1 ≤ k) (hC : 1 ≤ C) :
    (limiterRun ⟨C, C⟩ inner n).1.length = n ∧
    (limiterRun ⟨C, C⟩ inner n).1.get? i =
      some (if i < C then
          ⟨some (inner ()).1, (inner ()).2, true, ⟨C - (i + 1), C⟩⟩
        else ⟨none, some .rateLimitExceeded, false, ⟨C - (i + 1), C⟩⟩) ∧
    (limiterCall ((TokenBucket.mk 0 C).refill k) inner).innerInvoked = true := by
  refine ⟨?_, ?_, ?_⟩
  · rw [limiterRun_spec]
    simp
  · rw [limiterRun_spec, List.get?_eq_getElem?, List.getElem?_map,
      List.getElem?_range hi]
    rfl
  · have h1 : 0 < k := hk
    have h2 : 0 < C := hC
    simp [limiterCall, TokenBucket.refill, h1, h2]

/-- Instantiation of `erroring_limiter_admits_capacity` at capacity 2 and
4 calls: the third call (index 2) is rejected without invoking the
endpoint. -/
theorem erroring_limiter_admits_capacity_witness :
    (2 : Nat) < 4 ∧ (1 : Nat) ≤ 1 ∧ (1 : Nat) ≤ 2 ∧
    ((limiterRun ⟨2, 2⟩ (fun _ => ((7 : Nat), none)) 4).1.length = 4 ∧
     (limiterRun ⟨2, 2⟩ (fun _ => ((7 : Nat), none)) 4).1.get? 2 =
       some (if 2 < 2 then
           ⟨some ((fun (_ : Unit) => ((7 : Nat), (none : Option GoErr))) ()).1,
            ((fun (_ : Unit) => ((7 : Nat), (none : Option GoErr))) ()).2, true,
            ⟨2 - (2 + 1), 2⟩⟩
         else ⟨none, some .rateLimitExceeded, false, ⟨2 - (2 + 1), 2⟩⟩) ∧
     (limiterCall ((TokenBucket.mk 0 2).refill 1)
        (fun _ => ((7 : Nat), none))).innerInvoked = true) :=
  ⟨by decide, by decide, by decide,
   erroring_limiter_admits_capacity (fun _ => ((7 : Nat), none)) 2 4 2 1
     (by decide) (by decide) (by decide)⟩

/-- A concrete attempt sequence: two transport failures, then success. -/
def attemptsTwoFailThenOk : Nat → Except GoErr Nat :=
  fun i =>
    if i = 0 then .error (.transportErr "a")
    else if i = 1 then .error (.transportErr "b")
    else .ok 5

/-- The retry loop only consults the attempts within its budget. -/
theorem retryGo_congr {Resp : Type} :
    ∀ (rem i : Nat) (att att2 : Nat → Except GoErr Resp),
      (∀ j, i ≤ j → j < i + rem → att j = att2 j) →
      retryGo att i rem = retryGo att2 i rem := by
  intro rem
  induction rem with
  | zero => intro i att att2 _; rfl
  | succ rem ih =>
      intro i att att2 h
      cases rem with
      | zero =>
          show (att i, 1) = (att2 i, 1)
          rw [h i (le_refl i) (by omega)]
      | succ rem =>
          show (match att i with
              | Except.ok v => (Except.ok v, 1)
              | Except.error _ =>
                  let rest := retryGo att (i + 1) (rem + 1)
                  (rest.1, rest.2 + 1)) = _
          rw [h i (le_refl i) (by omega),
            ih (i + 1) att att2 (fun j h1 h2 => h j (by omega) (by omega))]
          rfl

/-- C6: with `retryMax = 3` (the profilesvc client configuration) and a
fresh selection per attempt: if the first two attempts fail with a
transport error and the third succeeds, the call returns the successful
response after exactly 3 attempts, and a fourth attempt is never consulted
(the outcome only depends on the first three attempts); success on an
earlier attempt returns immediately; if all attempts fail only the last
error is returned. -/
theorem retryMax3_semantics {Resp : Type} (att : Nat → Except GoErr Resp)
    (v : Resp) (e1 e2 e3 : GoErr)
    (h0 : att 0 = .error e1) (h1 : att 1 = .error e2) :
    (att 2 = .ok v → Retry 3 att = (.ok v, 3)) ∧
    (att 2 = .error e3 → Retry 3 att = (.error e3, 3)) ∧
    (∀ att2 : Nat → Except GoErr Resp, att2 0 = .ok v →
      Retry 3 att2 = (.ok v, 1)) ∧
    (∀ att2 : Nat → Except GoErr Resp, att2 0 = .error e1 → att2 1 = .ok v →
      Retry 3 att2 = (.ok v, 2)) ∧
    (∀ att2 : Nat → Except GoErr Resp, (∀ i, i < 3 → att i = att2 i) →
      Retry 3 att = Retry 3 att2) := by
  refine ⟨?_, ?_, ?_, ?_, ?_⟩
  · intro h2
    simp [Retry, retryGo, h0, h1, h2]
  · intro h2
    simp [Retry, retryGo, h0, h1, h2]
  · intro att2 g0
    simp [Retry, retryGo, g0]
  · intro att2 g0 g1
    simp [Retry, retryGo, g0, g1]
  · intro att2 h
    exact retryGo_congr 3 0 att att2 (fun j _ hj => h j (by omega))


/-- Instantiation of `retryMax3_semantics`: first two attempts fail with
transport errors, the third succeeds; the call returns the success after
exactly 3 attempts. -/
theorem retryMax3_semantics_witness :
    attemptsTwoFailThenOk 0 = .error (.transportErr "a") ∧
    attemptsTwoFailThenOk 1 = .error (.transportErr "b") ∧
    attemptsTwoFailThenOk 2 = .ok 5 ∧
    Retry 3 attemptsTwoFailThenOk = (.ok 5, 3) :=
  ⟨rfl, rfl, rfl,
   (retryMax3_semantics attemptsTwoFailThenOk 5 (.transportErr "a")
      (.transportErr "b") (.transportErr "c") rfl rfl).1 rfl⟩

/-- Closed form of `k` consecutive round-robin selections over a non-empty
list: selection `j` is `list[(counter + j) mod len(list)]`. -/
theorem rrRun_eq {α : Type} (l : List α) (hl : l ≠ []) (a₀ : α) :
    ∀ (k c : Nat),
      rrRun l c k =
        (List.range k).map (fun j => l.getD ((c + j) % l.length) a₀) := by
  intro k
  induction k with
  | zero => intro c; simp [rrRun]
  | succ k ih =>
      intro c
      have hlen : ¬ l.length = 0 := by
        simpa using List.length_pos.2 hl |>.ne'
      have hmod : c % l.length < l.length :=
        Nat.mod_lt c (Nat.pos_of_ne_zero hlen)
      have hsel : rrSelect l c = .ok (l.get ⟨c % l.length, hmod⟩, c + 1) := by
        simp [rrSelect, hlen]
      show (match rrSelect l c with
          | .error _ => []
          | .ok ac => ac.1 :: rrRun l ac.2 k) = _
      rw [hsel]
      dsimp only
      rw [List.range_succ_eq_map, List.map_cons, List.map_map, ih (c + 1)]
      refine congrArg₂ _ ?_ ?_
      · rw [Nat.add_zero, List.getD_eq_getElem l a₀ hmod]
        rfl
      · refine List.map_congr_left ?_
        intro j _
        have hadd : c + 1 + j = c + (j + 1) := by omega
        simp [Function.comp, hadd]

/-- `l.length` consecutive round-robin selections equal the rotation of the
endpoint list by the starting counter. -/
theorem rrRun_rotate {α : Type} (l : List α) (hl : l ≠ []) (a₀ : α) (c : Nat) :
    rrRun l c l.length = l.rotate (c % l.length) := by
  have hpos : 0 < l.length := List.length_pos.2 hl
  rw [rrRun_eq l hl a₀]
  refine List.ext_getElem (by simp) ?_
  intro i h₁ h₂
  rw [List.length_rotate] at h₂
  have h3 : (c + i) % l.length = (i + c % l.length) % l.length := by
    conv_lhs => rw [Nat.add_comm c i, Nat.add_mod]
    conv_rhs => rw [Nat.add_mod, Nat.mod_mod_of_dvd c (dvd_refl l.length)]
  simp only [List.getElem_map, List.getElem_range, List.getElem_rotate]
  rw [List.getD_eq_getElem l a₀ (Nat.mod_lt _ hpos)]
  congr 1

/-- C7: the round-robin balancer selects `list[counter mod len(list)]` and
increments its counter; `K` consecutive selections over a pool of size `K`
are a rotation of the pool, visiting each endpoint exactly once in stable
rotation order; on an empty list selection fails immediately with
NoEndpoints. -/
theorem roundRobin_semantics {α : Type} (l : List α) (a₀ : α) (c k : Nat)
    (hl : l ≠ []) :
    rrSelect ([] : List α) c = .error .noEndpoints ∧
    rrSelect l c = .ok (l.getD (c % l.length) a₀, c + 1) ∧
    rrRun l c k =
      (List.range k).map (fun j => l.getD ((c + j) % l.length) a₀) ∧
    rrRun l c l.length = l.rotate (c % l.length) ∧
    (rrRun l c l.length).Perm l := by
  have hlen : ¬ l.length = 0 := by
    simpa using List.length_pos.2 hl |>.ne'
  have hmod : c % l.length < l.length :=
    Nat.mod_lt c (Nat.pos_of_ne_zero hlen)
  refine ⟨rfl, ?_, rrRun_eq l hl a₀ k c, rrRun_rotate l hl a₀ c, ?_⟩
  · rw [show rrSelect l c = .ok (l.get ⟨c % l.length, hmod⟩, c + 1) from by
      simp [rrSelect, hlen]]
    rw [List.getD_eq_getElem l a₀ hmod]
    rfl
  · rw [rrRun_rotate l hl a₀ c]
    exact List.rotate_perm l (c % l.length)

/-- Instantiation of `roundRobin_semantics` over a three-endpoint pool at
counter 4: the three selections rotate through the pool starting at
index 1, and an empty pool fails with NoEndpoints. -/
theorem roundRobin_semantics_witness :
    (["a", "b", "c"] : List String) ≠ [] ∧
    rrRun ["a", "b", "c"] 4 (["a", "b", "c"] : List String).length =
      (["a", "b", "c"] : List String).rotate (4 % (["a", "b", "c"] : List String).length) ∧
    rrSelect ([] : List String) 4 = .error .noEndpoints :=
  ⟨by decide,
   (roundRobin_semantics ["a", "b", "c"] "z" 4 3 (by decide)).2.2.2.1,
   (roundRobin_semantics ["a", "b", "c"] "z" 4 3 (by decide)).1⟩

/-- C8: when the decode function fails (`decodeSumRequest` wraps the
unmarshal error in a jsonrpc error, `decodeUppercaseRequest` returns it
unchanged), the failure is reported to the caller, the wrapped endpoint is
never invoked for that request, and the circuit-breaker state is
unchanged. -/
theorem decode_failure_skips_endpoint {RespA RespB : Type}
    (um : String → Except String SumRequest)
    (umU : String → Except GoErr uppercaseRequest)
    (msg body es : String) (eu : GoErr)
    (e : Endpoint SumRequest RespA) (e2 : Endpoint uppercaseRequest RespB)
    (b b2 : Breaker) (now : Nat) (ctx : Context)
    (hum : um msg = .error es) (humU : umU body = .error eu) :
    serve (decodeSumRequest um) e b now ctx msg =
      ⟨none, some (.jsonrpcError (-32000)
        ("couldn't unmarshal body to sum request: " ++ es)), false, b⟩ ∧
    (serve (decodeSumRequest um) e b now ctx msg).breaker = b ∧
    (serve (decodeSumRequest um) e b now ctx msg).endpointInvoked = false ∧
    serve (decodeUppercaseRequest umU) e2 b2 now ctx body =
      ⟨none, some eu, false, b2⟩ ∧
    (serve (decodeUppercaseRequest umU) e2 b2 now ctx body).breaker = b2 ∧
    (serve (decodeUppercaseRequest umU) e2 b2 now ctx body).endpointInvoked =
      false := by
  have hd : decodeSumRequest um msg =
      .error (.jsonrpcError (-32000)
        ("couldn't unmarshal body to sum request: " ++ es)) := by
    simp [decodeSumRequest, hum]
  have hd2 : decodeUppercaseRequest umU body = .error eu := by
    simp [decodeUppercaseRequest, humU]
  refine ⟨?_, ?_, ?_, ?_, ?_, ?_⟩ <;> simp [serve, hd, hd2]

/-- Instantiation of `decode_failure_skips_endpoint` at a malformed wire
request (unmarshalling fails) against a Closed breaker. -/
theorem decode_failure_skips_endpoint_witness :
    ((fun (_ : String) => (.error "unexpected end of JSON input" :
        Except String SumRequest)) "[" = .error "unexpected end of JSON input") ∧
    serve (decodeSumRequest
        (fun _ => (.error "unexpected end of JSON input" : Except String SumRequest)))
      (MakeSumEndpoint ⟨fun _ a b => (a + b, none), fun _ a b => (a ++ b, none)⟩)
      (Breaker.mk .closed 0 0 5 30) 1 ⟨⟩ "[" =
      ⟨none, some (.jsonrpcError (-32000)
        ("couldn't unmarshal body to sum request: " ++
          "unexpected end of JSON input")), false, Breaker.mk .closed 0 0 5 30⟩ :=
  ⟨rfl,
   (decode_failure_skips_endpoint
      (fun _ => (.error "unexpected end of JSON input" : Except String SumRequest))
      (fun _ => (.error (.otherErr "bad json") : Except GoErr uppercaseRequest))
      "[" "[" "unexpected end of JSON input" (.otherErr "bad json")
      (MakeSumEndpoint ⟨fun _ a b => (a + b, none), fun _ a b => (a ++ b, none)⟩)
      (fun (_ : Context) (r : uppercaseRequest) => (r.S, (none : Option GoErr)))
      (Breaker.mk .closed 0 0 5 30) (Breaker.mk .closed 0 0 5 30) 1 ⟨⟩
      rfl rfl).1⟩
